import Mathlib

/-!
Verification of the Secure Boot PCR core of incus-os
(`incus-osd/internal/secureboot/pcrs.go`).

The Go source is shallowly embedded below.  Bytes are modelled as `Nat`
values (< 256), byte buffers as `List Nat`.  The external collaborators
that live outside the file under verification (the `go-eventlog` parsers,
`pkcs7.Parse`, the EFI variable reader, the file system, the LUKS and
TPM tools) are modelled as oracle records whose behaviour the theorems
quantify over.  Go runtime panics (out-of-range slice bounds, negative
`make` lengths) are modelled explicitly with an `Outcome.panic` result.
-/

namespace SecureBoot

/-! ## SHA-256 (crypto/sha256), executable over byte lists -/

/-- Truncate to a 32-bit word. -/
def w32 (x : Nat) : Nat := x % 4294967296

/-- 32-bit right rotation. -/
def rotr32 (n x : Nat) : Nat := (x >>> n) ||| w32 (x <<< (32 - n))

/-- 32-bit complement. -/
def not32 (x : Nat) : Nat := 4294967295 ^^^ x

def ch32 (x y z : Nat) : Nat := (x &&& y) ^^^ (not32 x &&& z)

def maj32 (x y z : Nat) : Nat := (x &&& y) ^^^ (x &&& z) ^^^ (y &&& z)

def bigSigma0 (x : Nat) : Nat := rotr32 2 x ^^^ rotr32 13 x ^^^ rotr32 22 x

def bigSigma1 (x : Nat) : Nat := rotr32 6 x ^^^ rotr32 11 x ^^^ rotr32 25 x

def smallSigma0 (x : Nat) : Nat := rotr32 7 x ^^^ rotr32 18 x ^^^ (x >>> 3)

def smallSigma1 (x : Nat) : Nat := rotr32 17 x ^^^ rotr32 19 x ^^^ (x >>> 10)

/-- The 64 SHA-256 round constants (FIPS 180-4, written in decimal). -/
def sha256K : List Nat :=
  [1116352408, 1899447441, 3049323471, 3921009573,
   961987163, 1508970993, 2453635748, 2870763221,
   3624381080, 310598401, 607225278, 1426881987,
   1925078388, 2162078206, 2614888103, 3248222580,
   3835390401, 4022224774, 264347078, 604807628,
   770255983, 1249150122, 1555081692, 1996064986,
   2554220882, 2821834349, 2952996808, 3210313671,
   3336571891, 3584528711, 113926993, 338241895,
   666307205, 773529912, 1294757372, 1396182291,
   1695183700, 1986661051, 2177026350, 2456956037,
   2730485921, 2820302411, 3259730800, 3345764771,
   3516065817, 3600352804, 4094571909, 275423344,
   430227734, 506948616, 659060556, 883997877,
   958139571, 1322822218, 1537002063, 1747873779,
   1955562222, 2024104815, 2227730452, 2361852424,
   2428436474, 2756734187, 3204031479, 3329325298]

/-- The SHA-256 initial hash value (FIPS 180-4, written in decimal). -/
def sha256H0 : List Nat :=
  [1779033703, 3144134277, 1013904242, 2773480762,
   1359893119, 2600822924, 528734635, 1541459225]

/-- Big-endian 8-byte encoding of a number (used for the length suffix). -/
def be64 (n : Nat) : List Nat :=
  [n >>> 56 % 256, n >>> 48 % 256, n >>> 40 % 256, n >>> 32 % 256,
   n >>> 24 % 256, n >>> 16 % 256, n >>> 8 % 256, n % 256]

/-- Big-endian 4-byte encoding of a 32-bit word. -/
def be32 (w : Nat) : List Nat := [w >>> 24 % 256, w >>> 16 % 256, w >>> 8 % 256, w % 256]

/-- SHA-256 padding: append 0x80, zero bytes to 56 mod 64, then the bit length. -/
def padMessage (msg : List Nat) : List Nat :=
  msg ++ [0x80] ++ List.replicate ((64 - (msg.length + 9) % 64) % 64) 0 ++ be64 (8 * msg.length)

/-- Group bytes into big-endian 32-bit words. -/
def bytesToWords : List Nat → List Nat
  | a :: b :: c :: d :: rest => (((a * 256 + b) * 256 + c) * 256 + d) :: bytesToWords rest
  | _ => []

/-- Split a padded byte stream into 16-word blocks. -/
def toBlocks (l : List Nat) : List (List Nat) :=
  if h : l = [] then []
  else
    bytesToWords (l.take 64) :: toBlocks (l.drop 64)
termination_by l.length
decreasing_by
  simp only [List.length_drop]
  exact Nat.sub_lt (List.length_pos.mpr h) (by omega)

/-- One step of the message-schedule extension: append word `w[n]` for `n ≥ 16`. -/
def scheduleStep (ws : List Nat) : List Nat :=
  let n := ws.length
  ws ++ [w32 (smallSigma1 (ws.getD (n - 2) 0) + ws.getD (n - 7) 0 +
              smallSigma0 (ws.getD (n - 15) 0) + ws.getD (n - 16) 0)]

/-- Iterate the schedule extension. -/
def extendSchedule (ws : List Nat) : Nat → List Nat
  | 0 => ws
  | k + 1 => extendSchedule (scheduleStep ws) k

/-- Full 64-word message schedule of a block. -/
def fullSchedule (block : List Nat) : List Nat := extendSchedule block 48

/-- One SHA-256 compression round on the 8-word working state. -/
def sha256Round (st : List Nat) (ki wi : Nat) : List Nat :=
  let a := st.getD 0 0
  let b := st.getD 1 0
  let c := st.getD 2 0
  let d := st.getD 3 0
  let e := st.getD 4 0
  let f := st.getD 5 0
  let g := st.getD 6 0
  let h := st.getD 7 0
  let t1 := w32 (h + bigSigma1 e + ch32 e f g + ki + wi)
  let t2 := w32 (bigSigma0 a + maj32 a b c)
  [w32 (t1 + t2), a, b, c, w32 (d + t1), e, f, g]

/-- Compress one block into the running hash value. -/
def compressBlock (hv : List Nat) (block : List Nat) : List Nat :=
  let ws := fullSchedule block
  let st := (sha256K.zip ws).foldl (fun s p => sha256Round s p.1 p.2) hv
  (hv.zip st).map fun p => w32 (p.1 + p.2)

/-- SHA-256 of a byte list, as a 32-byte list. -/
def SHA256 (msg : List Nat) : List Nat :=
  (((toBlocks (padMessage msg)).foldl compressBlock sha256H0).map be32).flatten

/-! ## The incremental hash object (`crypto.SHA256.New()` / `Write` / `Sum`)

In Go, `hash.Hash.Write` never returns an error (documented contract of
`hash.Hash`), so the `err` checks in `extendPCRValue` are dead code and the
embedding is total. -/

/-- State of an incremental SHA-256 hasher: the bytes written so far. -/
structure HashState where
  data : List Nat
deriving Repr, DecidableEq

/-- `crypto.SHA256.New()`. -/
def HashState.new : HashState := ⟨[]⟩

/-- `hash.Write(b)`: append bytes to the running state (never fails). -/
def HashState.write (h : HashState) (b : List Nat) : HashState := ⟨h.data ++ b⟩

/-- `hash.Sum(nil)`: the digest of everything written. -/
def HashState.sum (h : HashState) : List Nat := SHA256 h.data

/-! ## `extendPCRValue` (pcrs.go lines 326-350) -/

/-- `extendPCRValue(pcr, content, computeSHA256)`: extend a PCR with content,
optionally hashing the content first.  Mirrors the Go control flow: create a
hasher, write `pcr`, then either write `sha256.Sum256(content)` or write
`content`, and return the digest. -/
def extendPCRValue (pcr content : List Nat) (computeSHA256 : Bool) : List Nat :=
  let hash := HashState.new
  let hash := hash.write pcr
  let hash :=
    if computeSHA256 then
      hash.write (SHA256 content)
    else
      hash.write content
  hash.sum

/-! ## Go `strings` helpers

`strings.Split(s, " ")` with a single-space separator cuts `s` at every
space, keeping empty fields, and returns `[s]` (a single, possibly empty,
field) when there is no space; `strings.Join(l, " ")` re-joins with single
spaces; `strings.HasPrefix(s, p)` tests whether `p` is a prefix of `s`.
These are modelled structurally over the character list of the string. -/

/-- Cut a character list at every space, keeping empty fields. -/
def splitOnSpaceChars (l : List Char) : List (List Char) :=
  match l with
  | [] => [[]]
  | c :: rest =>
    let r := splitOnSpaceChars rest
    if c = ' ' then [] :: r
    else (c :: r.headD []) :: r.tail

/-- `strings.Split(s, " ")`. -/
def goSplitSpace (s : String) : List String := (splitOnSpaceChars s.data).map String.mk

/-- `strings.Join(l, " ")`. -/
def goJoinSpace : List String → String
  | [] => ""
  | [s] => s
  | s :: rest => s ++ " " ++ goJoinSpace rest

/-- `strings.HasPrefix(s, p)`. -/
def goHasPrefix (s p : String) : Bool := p.data.isPrefixOf s.data

/-! ## Certificates and UEFI variable records

`x509.Certificate` is kept abstract as its raw DER bytes plus the string form
of its `Subject` distinguished name (the only two projections `pcrs.go`
uses).  `Certificate.Equal` mirrors Go's `x509.Certificate.Equal`, which
compares the `Raw` bytes. -/

structure Certificate where
  raw : List Nat
  subject : String
deriving Repr, DecidableEq, Inhabited

/-- `x509.Certificate.Equal`: equality of the raw DER encodings. -/
def Certificate.Equal (c d : Certificate) : Bool := c.raw == d.raw

/-- Decoded `tcg.UEFIVariableData`: variable name, declared data length and
the variable data payload (the projections used by `pcrs.go`). -/
structure UEFIVariableData where
  varName : String
  variableDataLength : Nat
  variableData : List Nat
deriving Repr, DecidableEq, Inhabited

/-! ## Errors and outcomes -/

/-- The error values produced by the secureboot core, mirroring the Go error
returns of `pcrs.go`.  `external` wraps an error surfaced verbatim from a
collaborator (library parser, file system, EFI variable store, subprocess). -/
inductive Err where
  /-- An error propagated from an external collaborator. -/
  | external (msg : String)
  /-- "expected exactly one certificate in VariableAuthority, got %d" and
  "got %d certificates from PE '%s', expected exactly one". -/
  | unexpectedCertificateCount (n : Nat)
  /-- "failed to find matching certificate '%s' used by systemd-boot stub in EFI db variable". -/
  | expectedCertificateNotInDB (subject : String)
  /-- "resulting buffer size (%d) != expected size (%d)". -/
  | certificateSizeMismatch (got expected : Nat)
  /-- "file '%s' doesn't appear to be a 64bit signed PE". -/
  | notASignedPE (file : String)
  /-- "file '%s' doesn't appear to be a valid signed PE". -/
  | notAValidSignedPE (file : String)
  /-- "only read %d of %d expected bytes for certificate from PE '%s'". -/
  | shortRead (got expected : Nat) (file : String)
deriving Repr, DecidableEq

/-- Result of running a piece of Go code: a value, a returned error, or a
runtime panic (the Go program aborting). -/
inductive Outcome (α : Type) where
  | ok (a : α)
  | error (e : Err)
  | panic (msg : String)
deriving Repr, DecidableEq

/-- Whether an outcome is a runtime panic. -/
def Outcome.isPanic {α : Type} : Outcome α → Bool
  | .panic _ => true
  | _ => false

/-- The spec's `NotASignedPEBinary` failure covers both of the extractor's
refusal messages ("not a 64bit signed PE" / "not a valid signed PE"). -/
def Err.isNotASignedPEBinary : Err → Bool
  | .notASignedPE _ => true
  | .notAValidSignedPE _ => true
  | _ => false

/-! ## `extractCertificateFromPE` (pcrs.go lines 273-324)

`debug/pe`, `os.Open`/`ReadAt` and `pkcs7.Parse` are collaborators outside
the file under verification; they are modelled as an oracle record.  The
function's own logic — the 64-bit check, the size/offset arithmetic on the
security data directory, the bounds checks and the certificate-count check —
is embedded from the source. -/

/-- A data directory entry of a PE optional header (`debug/pe`):
`VirtualAddress` and `Size` are `uint32` fields. -/
structure DataDirectory where
  virtualAddress : Nat
  size : Nat
deriving Repr, DecidableEq

/-- The optional header of a parsed PE file, abstracted to what
`extractCertificateFromPE` inspects: whether it is the 64-bit variant, and
the security data-directory entry. -/
inductive OptionalHeader where
  /-- `*pe.OptionalHeader64` with its `DataDirectory[IMAGE_DIRECTORY_ENTRY_SECURITY]`. -/
  | oh64 (security : DataDirectory)
  /-- Any other header variant (32-bit PE, missing header). -/
  | other
deriving Repr, DecidableEq

structure PEFile where
  optionalHeader : OptionalHeader
deriving Repr, DecidableEq

/-- Oracle for the PE extractor's collaborators: the result of `pe.Open`,
the raw bytes of the file on disk, and `pkcs7.Parse`. -/
structure PEEnv where
  peOpen : Except String PEFile
  fileContent : Except String (List Nat)
  pkcs7Parse : List Nat → Except String (List Certificate)

/-- `extractCertificateFromPE(filename)`.  The embedding keeps the source's
`int64` arithmetic (`certSize = Size - 8`, `offset = VirtualAddress + 8` over
`Int`), the guard `certSize <= -8 || offset <= 8`, the buffer allocation
`make([]byte, certSize)` — which panics in Go when `certSize` is negative,
modelled by `Outcome.panic` — the `ReadAt` short-read check, and the
exactly-one-certificate check on the PKCS7 parse. -/
def extractCertificateFromPE (env : PEEnv) (filename : String) : Outcome Certificate :=
  match env.peOpen with
  | .error e => .error (.external e)
  | .ok peFile =>
    match peFile.optionalHeader with
    | .other => .error (.notASignedPE filename)
    | .oh64 security =>
      let certSize : Int := (security.size : Int) - 8
      let offset : Int := (security.virtualAddress : Int) + 8
      if certSize ≤ -8 ∨ offset ≤ 8 then
        .error (.notAValidSignedPE filename)
      else if certSize < 0 then
        -- Go: `make([]byte, certSize)` with a negative length panics.
        .panic "makeslice: len out of range"
      else
        match env.fileContent with
        | .error e => .error (.external e)
        | .ok file =>
          -- `ReadAt(buf, offset)`: reads at most the bytes available past
          -- `offset`; a short read surfaces as `io.EOF`, which the source
          -- tolerates and then rejects via the byte-count check.
          let readBytes : Int := min certSize (max 0 ((file.length : Int) - offset))
          if readBytes ≠ certSize then
            .error (.shortRead readBytes.toNat certSize.toNat filename)
          else
            let buf := (file.drop offset.toNat).take certSize.toNat
            match env.pkcs7Parse buf with
            | .error e => .error (.external e)
            | .ok certs =>
              if certs.length ≠ 1 then
                .error (.unexpectedCertificateCount certs.length)
              else
                .ok (certs.getD 0 default)

/-! ## The secureboot oracle environment

Oracles for the collaborators of `computeExpectedVariableDriverConfig` and
`computeExpectedVariableAuthority`: the `go-eventlog` parsers and encoder,
the live EFI variable reader, `getArchEFIFiles` (which yields the path of
the systemd-boot EFI stub), the PE file system state, and
`GetCertificatesFromVar`. -/
structure SBEnv where
  parseUEFIVariableData : List Nat → Except String UEFIVariableData
  parseUEFIVariableAuthority : UEFIVariableData → Except String (List Certificate)
  encode : UEFIVariableData → Except String (List Nat)
  readEFIVariable : String → Except String (List Nat)
  getArchEFIFiles : Except String String
  peEnv : PEEnv
  getCertificatesFromVar : String → Except String (List Certificate)

/-! ## `computeExpectedVariableDriverConfig` (pcrs.go lines 169-189) -/

/-- Parse the event payload, read the live EFI variable named by it,
substitute the live value (updating the declared length), and re-encode. -/
def computeExpectedVariableDriverConfig (env : SBEnv) (rawBuf : List Nat) :
    Outcome (List Nat) :=
  match env.parseUEFIVariableData rawBuf with
  | .error e => .error (.external e)
  | .ok v =>
    match env.readEFIVariable v.varName with
    | .error e => .error (.external e)
    | .ok buf =>
      match env.encode { v with variableDataLength := buf.length, variableData := buf } with
      | .error e => .error (.external e)
      | .ok out => .ok out

/-! ## `computeExpectedVariableAuthority` (pcrs.go lines 191-271)

The Go source slices `strings.Split(existingCert.Subject.String(), " ")[:4]`
and `v.VariableData[:16]`; both slicings panic when the underlying data is
shorter, which the embedding models with `Outcome.panic`.
`slices.IndexFunc` (index of the first match, or -1) is modelled with
`List.findIdx?`. -/
def computeExpectedVariableAuthority (env : SBEnv) (rawBuf : List Nat) :
    Outcome (List Nat) :=
  match env.parseUEFIVariableData rawBuf with
  | .error e => .error (.external e)
  | .ok v =>
    match env.parseUEFIVariableAuthority v with
    | .error e => .error (.external e)
    | .ok certs =>
      if certs.length ≠ 1 then
        .error (.unexpectedCertificateCount certs.length)
      else
        let c := certs.getD 0 default
        match env.getArchEFIFiles with
        | .error e => .error (.external e)
        | .ok bootEFIPath =>
          match extractCertificateFromPE env.peEnv bootEFIPath with
          | .panic m => .panic m
          | .error e => .error e
          | .ok existingCert =>
            -- If the certificates match, no need for further updates.
            if c.Equal existingCert then
              .ok rawBuf
            else
              let toks := goSplitSpace existingCert.subject
              -- Go: `strings.Split(...)[:4]` panics when fewer than 4 tokens.
              if toks.length < 4 then
                .panic "slice bounds out of range"
              else
                let existingCertPrefixStr := goJoinSpace (toks.take 4)
                if !(goHasPrefix c.subject existingCertPrefixStr) then
                  -- Third-party certificate: nothing for us to do.
                  .ok rawBuf
                else
                  match env.getCertificatesFromVar "db" with
                  | .error e => .error (.external e)
                  | .ok dbCerts =>
                    match dbCerts.findIdx? (fun d => d.Equal existingCert) with
                    | none => .error (.expectedCertificateNotInDB existingCert.subject)
                    | some index =>
                      -- Go: `v.VariableData[:16]` panics when shorter than 16.
                      if v.variableData.length < 16 then
                        .panic "slice bounds out of range"
                      else
                        let newBuf := v.variableData.take 16 ++ (dbCerts.getD index default).raw
                        if newBuf.length ≠ v.variableData.length then
                          .error (.certificateSizeMismatch newBuf.length v.variableData.length)
                        else
                          match env.encode { v with variableData := newBuf } with
                          | .error e => .error (.external e)
                          | .ok out => .ok out

/-! ## `computeNewPCR7Value` (pcrs.go lines 120-167) -/

/-- A TCG event type, as switched over by the source: the two named cases
and a catch-all carrying the numeric type code of any other event. -/
inductive EventType where
  | EFIVariableDriverConfig
  | EFIVariableAuthority
  | other (code : Nat)
deriving Repr, DecidableEq

/-- A validated TCG event-log entry: PCR index, event type, raw event data,
and the digest replayed from the log (`tcg.Event.ReplayedDigest()`). -/
structure Event where
  index : Nat
  type : EventType
  data : List Nat
  replayedDigest : List Nat
deriving Repr, DecidableEq

/-- The all-zero initial PCR accumulator (`make([]byte, 32)`). -/
def zero32 : List Nat := List.replicate 32 0

/-- The loop body of `computeNewPCR7Value`, written as a recursion over the
remaining events with the accumulator threaded through, exactly mirroring
the Go `for` loop: skip events whose `Index` is not 7; for
`EFIVariableDriverConfig` and `EFIVariableAuthority` events extend with the
recomputed buffer hashed first; for every other event type extend with the
replayed digest unhashed. -/
def pcr7Loop (env : SBEnv) (acc : List Nat) : List Event → Outcome (List Nat)
  | [] => .ok acc
  | e :: rest =>
    if e.index = 7 then
      match e.type with
      | .EFIVariableDriverConfig =>
        match computeExpectedVariableDriverConfig env e.data with
        | .error er => .error er
        | .panic m => .panic m
        | .ok buf => pcr7Loop env (extendPCRValue acc buf true) rest
      | .EFIVariableAuthority =>
        match computeExpectedVariableAuthority env e.data with
        | .error er => .error er
        | .panic m => .panic m
        | .ok buf => pcr7Loop env (extendPCRValue acc buf true) rest
      | .other _ => pcr7Loop env (extendPCRValue acc e.replayedDigest false) rest
    else
      pcr7Loop env acc rest

/-- `computeNewPCR7Value(eventLog)`: start from the 32-byte zero accumulator
and run the loop over the whole log. -/
def computeNewPCR7Value (env : SBEnv) (eventLog : List Event) : Outcome (List Nat) :=
  pcr7Loop env zero32 eventLog

/-- Modelled from the spec (§4.5 `predict_pcr7`): process exactly the events
with `pcr_index == 7`, in log order, by a monadic fold of the per-event

extension step over the PCR-7 events, starting from the zero accumulator.
This is the specification-side definition that `computeNewPCR7Value` is
proved to refine. -/
def pcr7SpecStep (env : SBEnv) (acc : List Nat) (e : Event) : Outcome (List Nat) :=
  match e.type with
  | .EFIVariableDriverConfig =>
    match computeExpectedVariableDriverConfig env e.data with
    | .error er => .error er
    | .panic m => .panic m
    | .ok buf => .ok (extendPCRValue acc buf true)
  | .EFIVariableAuthority =>
    match computeExpectedVariableAuthority env e.data with
    | .error er => .error er
    | .panic m => .panic m
    | .ok buf => .ok (extendPCRValue acc buf true)
  | .other _ => .ok (extendPCRValue acc e.replayedDigest false)

/-- Modelled from the spec (§4.5): fold the extension step over a list of
events, aborting on the first failure. -/
def pcr7SpecFold (env : SBEnv) (acc : List Nat) : List Event → Outcome (List Nat)
  | [] => .ok acc
  | e :: rest =>
    match pcr7SpecStep env acc e with
    | .error er => .error er
    | .panic m => .panic m
    | .ok acc2 => pcr7SpecFold env acc2 rest

/-- Modelled from the spec (§4.5): `predict_pcr7` as described — keep only
the PCR-7 events and fold the extension step from the zero accumulator. -/
def predictPCR7Spec (env : SBEnv) (eventLog : List Event) : Outcome (List Nat) :=
  pcr7SpecFold env zero32 (eventLog.filter fun e => e.index = 7)

/-! ## `ForceUpdatePCRBindings` (pcrs.go lines 25-98)

The recovery operation drives external collaborators only (Secure Boot
status, LUKS volume enumeration, `cryptsetup` passphrase tests,
the TPM PCR7 sysfs read, UKI certificate extraction, a key-file write,
`systemd-cryptenroll` per volume, `systemctl reboot`).  The embedding is an
interpreter over an oracle record that also emits the trace of external
actions actually invoked, in order, so that the gating and abort-ordering
claims can be stated over the trace. -/

/-- Externally visible actions invoked by the recovery operation. -/
inductive Action where
  /-- Query of the Secure Boot enabled state. -/
  | checkSecureBoot
  /-- Enumeration of the LUKS volume partitions. -/
  | enumerateVolumes
  /-- `cryptsetup luksOpen --test-passphrase <dev> <name>`. -/
  | testPassphrase (name dev : String)
  /-- Read of `/sys/class/tpm/tpm0/pcr-sha256/7`. -/
  | readPCR7
  /-- `getPublicKeyFromUKI` on the running UKI binary. -/
  | extractUKICert
  /-- Write of `/run/systemd/tpm2-pcr-public-key.pem`. -/
  | writeRuntimeKey
  /-- `systemd-cryptenroll ... <dev>`: the destructive re-enrollment. -/
  | reenroll (dev : String)
  /-- `systemctl reboot`. -/
  | reboot
deriving Repr, DecidableEq

/-- Errors returned by the recovery operation. -/
inductive RecErr where
  /-- An error from an external collaborator, surfaced verbatim. -/
  | external (msg : String)
  /-- "refusing to reset TPM encryption bindings because Secure Boot is disabled". -/
  | secureBootDisabled
  /-- "refusing to reset TPM encryption bindings because current state can unlock all volumes". -/
  | noRecoveryNeeded
  /-- A `systemd-cryptenroll` failure for the given volume device. -/
  | reenrollFailed (dev : String)
  /-- A `systemctl reboot` failure. -/
  | rebootFailed (msg : String)
deriving Repr, DecidableEq

/-- Oracle for the recovery operation's collaborators.  LUKS volumes are
the map `name ↦ device` enumerated by `GetLUKSVolumePartitions`, modelled
as an association list in the (arbitrary) iteration order of the Go map. -/
structure RecoveryEnv where
  sbEnabled : Except String Bool
  luksVolumes : Except String (List (String × String))
  /-- Whether `cryptsetup luksOpen --test-passphrase dev name` succeeds. -/
  testPassphrase : String → String → Bool
  readPCR7 : Except String (List Nat)
  getPublicKeyFromUKI : Except String (List Nat)
  writeKeyFile : List Nat → Except String Unit
  /-- Whether `systemd-cryptenroll` succeeds for a volume device. -/
  reenroll : String → Bool
  rebootCmd : Except String Unit

/-- First loop of `ForceUpdatePCRBindings`: run the passphrase unlock test
on each volume, stopping at (and recording) the first failure; returns the
`atLeastOneVolumeNeedsFixing` flag and the trace of tests invoked. -/
def testVolumesLoop (env : RecoveryEnv) : List (String × String) → Bool × List Action
  | [] => (false, [])
  | nd :: rest =>
    if env.testPassphrase nd.1 nd.2 then
      let r := testVolumesLoop env rest
      (r.1, .testPassphrase nd.1 nd.2 :: r.2)
    else
      (true, [.testPassphrase nd.1 nd.2])

/-- Second loop of `ForceUpdatePCRBindings`: re-enroll each volume device in
turn, aborting at the first failure; returns the result and the trace of
re-enrollments invoked. -/
def reenrollLoop (env : RecoveryEnv) : List (String × String) → Except RecErr Unit × List Action
  | [] => (.ok (), [])
  | nd :: rest =>
    if env.reenroll nd.2 then
      let r := reenrollLoop env rest
      (r.1, .reenroll nd.2 :: r.2)
    else
      (.error (.reenrollFailed nd.2), [.reenroll nd.2])

/-- `ForceUpdatePCRBindings(osName, osVersion, luksPassword)`: the linear
recovery workflow, returning its result together with the ordered trace of
external actions invoked.  Mirrors the Go source: Secure Boot gate, volume
enumeration, per-volume passphrase test with early break, the
`NoRecoveryNeeded` refusal, live PCR7 read, UKI certificate extraction,
runtime key-file write, per-volume re-enrollment with abort on first
failure, and the final reboot request. -/
def ForceUpdatePCRBindings (env : RecoveryEnv) : Except RecErr Unit × List Action :=
  match env.sbEnabled with
  | .error e => (.error (.external e), [.checkSecureBoot])
  | .ok false => (.error .secureBootDisabled, [.checkSecureBoot])
  | .ok true =>
    match env.luksVolumes with
    | .error e => (.error (.external e), [.checkSecureBoot, .enumerateVolumes])
    | .ok vols =>
      let t := testVolumesLoop env vols
      let pre := .checkSecureBoot :: .enumerateVolumes :: t.2
      if !t.1 then
        (.error .noRecoveryNeeded, pre)
      else
        match env.readPCR7 with
        | .error e => (.error (.external e), pre ++ [.readPCR7])
        | .ok _ =>
          match env.getPublicKeyFromUKI with
          | .error e => (.error (.external e), pre ++ [.readPCR7, .extractUKICert])
          | .ok ukiCert =>
            match env.writeKeyFile ukiCert with
            | .error e => (.error (.external e), pre ++ [.readPCR7, .extractUKICert, .writeRuntimeKey])
            | .ok _ =>
              let r := reenrollLoop env vols
              let pre2 := pre ++ [.readPCR7, .extractUKICert, .writeRuntimeKey]
              match r.1 with
              | .error e => (.error e, pre2 ++ r.2)
              | .ok _ =>
                match env.rebootCmd with
                | .error e => (.error (.rebootFailed e), pre2 ++ r.2 ++ [.reboot])
                | .ok _ => (.ok (), pre2 ++ r.2 ++ [.reboot])

/-- The volume devices re-enrolled in a trace, in order. -/
def reenrolledDevs (tr : List Action) : List String :=
  tr.filterMap fun a =>
    match a with
    | .reenroll d => some d
    | _ => none

/-! ## Concrete instances shared by the witnesses -/

/-- A boot-stub certificate with a four-token Subject. -/
def certStub : Certificate := ⟨[1, 2, 3, 4], "O=Incus OS Secure Boot"⟩

/-- A rotated certificate of the same family (same four-token prefix). -/
def certRotated : Certificate := ⟨[5, 6, 7, 8], "O=Incus OS Secure Boot Key 2026"⟩

/-- A foreign (third-party) certificate. -/
def certForeign : Certificate := ⟨[9, 9], "CN=ThirdParty UEFI CA 2026"⟩

/-- A PE oracle under which `extractCertificateFromPE` succeeds with `c`:
a 64-bit PE whose security directory has `VirtualAddress = 1` and
`Size = 12` (so `certSize = 4`, `offset = 9`), 13 bytes of file content,
and a PKCS7 parser yielding exactly `c`. -/
def peEnvOkFor (c : Certificate) : PEEnv :=
  { peOpen := .ok ⟨.oh64 ⟨1, 12⟩⟩
  , fileContent := .ok (List.replicate 13 0)
  , pkcs7Parse := fun _ => .ok [c] }

/-! # Helper lemmas -/

theorem extendPCRValue_true (pcr content : List Nat) :
    extendPCRValue pcr content true = SHA256 (pcr ++ SHA256 content) := by
  simp [extendPCRValue, HashState.new, HashState.write, HashState.sum]

theorem extendPCRValue_false (pcr content : List Nat) :
    extendPCRValue pcr content false = SHA256 (pcr ++ content) := by
  simp [extendPCRValue, HashState.new, HashState.write, HashState.sum]

/-! # Claim theorems -/

/-- C5: for every `pcr` and `content`, `extendPCRValue` returns
`SHA256(pcr || SHA256(content))` when `computeSHA256` is true and
`SHA256(pcr || content)` when it is false.  The embedded function is a total
pure function (deterministic); the Go error path is unreachable because
`hash.Hash.Write` never returns an error. -/
theorem c5_extend_pcr_value (pcr content : List Nat) :
    extendPCRValue pcr content true = SHA256 (pcr ++ SHA256 content) ∧
    extendPCRValue pcr content false = SHA256 (pcr ++ content) :=
  ⟨extendPCRValue_true pcr content, extendPCRValue_false pcr content⟩

/-- C9: both certificate-yielding parse sites enforce a count of exactly
one — `computeExpectedVariableAuthority` fails with the
unexpected-certificate-count error whenever the variable-authority record
parses to a number of certificates different from one, and
`extractCertificateFromPE` fails with the unexpected-certificate-count error
whenever its PKCS7 parse yields a number of certificates different from
one. -/
theorem c9_exactly_one_certificate
    (env : SBEnv) (rawBuf : List Nat) (v : UEFIVariableData) (cs : List Certificate)
    (penv : PEEnv) (fname : String) (pef : PEFile) (va sz : Nat)
    (file : List Nat) (cs2 : List Certificate)
    (h1 : env.parseUEFIVariableData rawBuf = .ok v)
    (h2 : env.parseUEFIVariableAuthority v = .ok cs)
    (h3 : cs.length ≠ 1)
    (g1 : penv.peOpen = .ok pef)
    (g2 : pef.optionalHeader = .oh64 ⟨va, sz⟩)
    (g3 : 8 ≤ sz) (g4 : 1 ≤ va)
    (g5 : penv.fileContent = .ok file)
    (g6 : va + 8 + (sz - 8) ≤ file.length)
    (g7 : penv.pkcs7Parse ((file.drop (va + 8)).take (sz - 8)) = .ok cs2)
    (g8 : cs2.length ≠ 1) :
    computeExpectedVariableAuthority env rawBuf =
      .error (.unexpectedCertificateCount cs.length) ∧
    extractCertificateFromPE penv fname =
      .error (.unexpectedCertificateCount cs2.length) := by
  constructor
  · simp only [computeExpectedVariableAuthority, h1, h2]
    simp [h3]
  · simp only [extractCertificateFromPE, g1, g2]
    rw [if_neg (by omega)]
    rw [if_neg (by omega)]
    simp only [g5]
    rw [if_neg (by omega)]
    have hoff : (((va : Nat) : Int) + 8).toNat = va + 8 := by omega
    have hsz : (((sz : Nat) : Int) - 8).toNat = sz - 8 := by omega
    rw [hoff, hsz, g7]
    simp [g8]

/-- C9 witness: a variable-authority record parsing to two certificates and
a PE whose PKCS7 blob parses to two certificates are both rejected with the
unexpected-certificate-count error. -/
theorem c9_exactly_one_certificate_witness :
    computeExpectedVariableAuthority
      { parseUEFIVariableData := fun _ => .ok ⟨"db", 24, List.replicate 24 0⟩
      , parseUEFIVariableAuthority := fun _ => .ok [certStub, certRotated]
      , encode := fun w => .ok w.variableData
      , readEFIVariable := fun _ => .error "unused"
      , getArchEFIFiles := .ok "bootEFI"
      , peEnv := peEnvOkFor certStub
      , getCertificatesFromVar := fun _ => .error "unused" } [0]
      = .error (.unexpectedCertificateCount 2) ∧
    extractCertificateFromPE
      { peOpen := .ok ⟨.oh64 ⟨1, 12⟩⟩
      , fileContent := .ok (List.replicate 13 0)
      , pkcs7Parse := fun _ => .ok [certStub, certRotated] } "f.efi"
      = .error (.unexpectedCertificateCount 2) :=
  c9_exactly_one_certificate
    _ [0] ⟨"db", 24, List.replicate 24 0⟩ [certStub, certRotated]
    _ "f.efi" ⟨.oh64 ⟨1, 12⟩⟩ 1 12 (List.replicate 13 0) [certStub, certRotated]
    rfl rfl (by decide) rfl rfl (by decide) (by decide) rfl (by decide) rfl (by decide)

/-- C7: Trust Matcher identity cases.  If the event-log certificate equals
the boot-stub certificate, `computeExpectedVariableAuthority` returns its
input buffer unchanged; likewise if the event-log certificate's Subject does
not start with the boot-stub certificate's four-token trust prefix.  The two
cases are instantiated on two independent oracle environments. -/
theorem c7_trust_matcher_identity
    (envE envF : SBEnv) (rawE rawF : List Nat) (vE vF : UEFIVariableData)
    (cE cF exE exF : Certificate) (pathE pathF : String)
    (hE1 : envE.parseUEFIVariableData rawE = .ok vE)
    (hE2 : envE.parseUEFIVariableAuthority vE = .ok [cE])
    (hE3 : envE.getArchEFIFiles = .ok pathE)
    (hE4 : extractCertificateFromPE envE.peEnv pathE = .ok exE)
    (hE5 : cE.Equal exE = true)
    (hF1 : envF.parseUEFIVariableData rawF = .ok vF)
    (hF2 : envF.parseUEFIVariableAuthority vF = .ok [cF])
    (hF3 : envF.getArchEFIFiles = .ok pathF)
    (hF4 : extractCertificateFromPE envF.peEnv pathF = .ok exF)
    (hF5 : cF.Equal exF = false)
    (hF6 : 4 ≤ (goSplitSpace exF.subject).length)
    (hF7 : goHasPrefix cF.subject (goJoinSpace ((goSplitSpace exF.subject).take 4)) = false) :
    computeExpectedVariableAuthority envE rawE = .ok rawE ∧
    computeExpectedVariableAuthority envF rawF = .ok rawF := by
  constructor
  · simp only [computeExpectedVariableAuthority, hE1, hE2, hE3, hE4]
    simp [hE5]
  · simp only [computeExpectedVariableAuthority, hF1, hF2, hF3, hF4]
    have h4 : ¬((goSplitSpace exF.subject).length < 4) := by omega
    simp [hF5, h4, hF7]

/-- C7 witness: with the rotated certificate matching the boot stub the
record is returned unchanged, and with a foreign certificate (whose Subject
lacks the trust prefix) the record is also returned unchanged. -/
theorem c7_trust_matcher_identity_witness :
    computeExpectedVariableAuthority
      { parseUEFIVariableData := fun _ => .ok ⟨"db", 20, List.replicate 20 0⟩
      , parseUEFIVariableAuthority := fun _ => .ok [certStub]
      , encode := fun w => .ok w.variableData
      , readEFIVariable := fun _ => .error "unused"
      , getArchEFIFiles := .ok "bootEFI"
      , peEnv := peEnvOkFor certStub
      , getCertificatesFromVar := fun _ => .error "unused" } [0]
      = .ok [0] ∧
    computeExpectedVariableAuthority
      { parseUEFIVariableData := fun _ => .ok ⟨"db", 20, List.replicate 20 0⟩
      , parseUEFIVariableAuthority := fun _ => .ok [certForeign]
      , encode := fun w => .ok w.variableData
      , readEFIVariable := fun _ => .error "unused"
      , getArchEFIFiles := .ok "bootEFI"
      , peEnv := peEnvOkFor certStub
      , getCertificatesFromVar := fun _ => .error "unused" } [1]
      = .ok [1] :=
  c7_trust_matcher_identity
    _ _ [0] [1] ⟨"db", 20, List.replicate 20 0⟩ ⟨"db", 20, List.replicate 20 0⟩
    certStub certForeign certStub certStub "bootEFI" "bootEFI"
    rfl rfl rfl (by decide) (by decide)
    rfl rfl rfl (by decide) (by decide) (by decide) (by decide)

/-- Characterization of `computeExpectedVariableAuthority` on the
rotation path: event-log certificate differs from the boot-stub certificate
but its Subject carries the trust prefix, so the live `db` certificate set
is searched and a substitution is attempted. -/
theorem authority_rotation_path
    (env : SBEnv) (rawBuf : List Nat) (v : UEFIVariableData)
    (c existing : Certificate) (path : String) (dbCerts : List Certificate)
    (h1 : env.parseUEFIVariableData rawBuf = .ok v)
    (h2 : env.parseUEFIVariableAuthority v = .ok [c])
    (h3 : env.getArchEFIFiles = .ok path)
    (h4 : extractCertificateFromPE env.peEnv path = .ok existing)
    (h5 : c.Equal existing = false)
    (h6 : 4 ≤ (goSplitSpace existing.subject).length)
    (h7 : goHasPrefix c.subject (goJoinSpace ((goSplitSpace existing.subject).take 4)) = true)
    (h8 : env.getCertificatesFromVar "db" = .ok dbCerts)
    (h9 : 16 ≤ v.variableData.length) :
    computeExpectedVariableAuthority env rawBuf =
      match dbCerts.findIdx? (fun d => d.Equal existing) with
      | none => .error (.expectedCertificateNotInDB existing.subject)
      | some index =>
        let newBuf := v.variableData.take 16 ++ (dbCerts.getD index default).raw
        if newBuf.length ≠ v.variableData.length then
          .error (.certificateSizeMismatch newBuf.length v.variableData.length)
        else
          match env.encode { v with variableData := newBuf } with
          | .error e => .error (.external e)
          | .ok out => .ok out := by
  simp only [computeExpectedVariableAuthority, h1, h2, h3, h4]
  have h4' : ¬((goSplitSpace existing.subject).length < 4) := by omega
  have h9' : ¬(v.variableData.length < 16) := by omega
  simp [h5, h4', h7, h8, h9']

/-- C2: on the rotation path (event-log certificate differs from the
boot-stub certificate but its Subject starts with the trust prefix):
if no certificate equal to the boot-stub certificate is in the live `db`
variable the operation fails with the expected-certificate-not-in-db error;
if one is found, substitution fails with the certificate-size-mismatch error
whenever the replacement certificate's encoded length `M` differs from
`N - 16` (for `N` the variable-data length, which by the data model carries
a fixed 16-byte header), and otherwise succeeds, re-encoding a variable-data
buffer of exactly the original length `N` whose first 16 header bytes are
preserved and whose remaining bytes are the replacement certificate.
The three branches are instantiated on three independent oracle
environments. -/
theorem c2_certificate_substitution
    (envN envM envS : SBEnv) (rawN rawM rawS : List Nat)
    (vN vM vS : UEFIVariableData) (cN cM cS exN exM exS : Certificate)
    (pathN pathM pathS : String) (dbN dbM dbS : List Certificate)
    (iM iS : Nat) (outS : List Nat)
    (hN1 : envN.parseUEFIVariableData rawN = .ok vN)
    (hN2 : envN.parseUEFIVariableAuthority vN = .ok [cN])
    (hN3 : envN.getArchEFIFiles = .ok pathN)
    (hN4 : extractCertificateFromPE envN.peEnv pathN = .ok exN)
    (hN5 : cN.Equal exN = false)
    (hN6 : 4 ≤ (goSplitSpace exN.subject).length)
    (hN7 : goHasPrefix cN.subject (goJoinSpace ((goSplitSpace exN.subject).take 4)) = true)
    (hN8 : envN.getCertificatesFromVar "db" = .ok dbN)
    (hN9 : 16 ≤ vN.variableData.length)
    (hN10 : dbN.findIdx? (fun d => d.Equal exN) = none)
    (hM1 : envM.parseUEFIVariableData rawM = .ok vM)
    (hM2 : envM.parseUEFIVariableAuthority vM = .ok [cM])
    (hM3 : envM.getArchEFIFiles = .ok pathM)
    (hM4 : extractCertificateFromPE envM.peEnv pathM = .ok exM)
    (hM5 : cM.Equal exM = false)
    (hM6 : 4 ≤ (goSplitSpace exM.subject).length)
    (hM7 : goHasPrefix cM.subject (goJoinSpace ((goSplitSpace exM.subject).take 4)) = true)
    (hM8 : envM.getCertificatesFromVar "db" = .ok dbM)
    (hM9 : 16 ≤ vM.variableData.length)
    (hM10 : dbM.findIdx? (fun d => d.Equal exM) = some iM)
    (hM11 : 16 + (dbM.getD iM default).raw.length ≠ vM.variableData.length)
    (hS1 : envS.parseUEFIVariableData rawS = .ok vS)
    (hS2 : envS.parseUEFIVariableAuthority vS = .ok [cS])
    (hS3 : envS.getArchEFIFiles = .ok pathS)
    (hS4 : extractCertificateFromPE envS.peEnv pathS = .ok exS)
    (hS5 : cS.Equal exS = false)
    (hS6 : 4 ≤ (goSplitSpace exS.subject).length)
    (hS7 : goHasPrefix cS.subject (goJoinSpace ((goSplitSpace exS.subject).take 4)) = true)
    (hS8 : envS.getCertificatesFromVar "db" = .ok dbS)
    (hS9 : 16 ≤ vS.variableData.length)
    (hS10 : dbS.findIdx? (fun d => d.Equal exS) = some iS)
    (hS11 : 16 + (dbS.getD iS default).raw.length = vS.variableData.length)
    (hS12 : envS.encode
        { vS with variableData :=
            vS.variableData.take 16 ++ (dbS.getD iS default).raw } = .ok outS) :
    computeExpectedVariableAuthority envN rawN =
      .error (.expectedCertificateNotInDB exN.subject) ∧
    computeExpectedVariableAuthority envM rawM =
      .error (.certificateSizeMismatch (16 + (dbM.getD iM default).raw.length)
        vM.variableData.length) ∧
    (computeExpectedVariableAuthority envS rawS = .ok outS ∧
      (vS.variableData.take 16 ++ (dbS.getD iS default).raw).length
        = vS.variableData.length ∧
      (vS.variableData.take 16 ++ (dbS.getD iS default).raw).take 16
        = vS.variableData.take 16) := by
  have lenTake : ∀ w : UEFIVariableData, 16 ≤ w.variableData.length →
      ∀ r : List Nat, (w.variableData.take 16 ++ r).length = 16 + r.length := by
    intro w hw r
    simp [List.length_append, List.length_take]
    omega
  refine ⟨?_, ?_, ?_, ?_, ?_⟩
  · rw [authority_rotation_path envN rawN vN cN exN pathN dbN
      hN1 hN2 hN3 hN4 hN5 hN6 hN7 hN8 hN9, hN10]
  · rw [authority_rotation_path envM rawM vM cM exM pathM dbM
      hM1 hM2 hM3 hM4 hM5 hM6 hM7 hM8 hM9, hM10]
    have hlen := lenTake vM hM9 (dbM.getD iM default).raw
    simp only [hlen]
    rw [if_pos hM11]
  · rw [authority_rotation_path envS rawS vS cS exS pathS dbS
      hS1 hS2 hS3 hS4 hS5 hS6 hS7 hS8 hS9, hS10]
    have hlen := lenTake vS hS9 (dbS.getD iS default).raw
    simp only [hlen]
    rw [if_neg (by omega), hS12]
  · exact (lenTake vS hS9 _).trans hS11
  · have hlen16 : 16 ≤ (vS.variableData.take 16).length := by
      simp [List.length_take]
      omega
    rw [List.take_append_of_le_length hlen16]
    simp [List.take_take]

/-- Variable data of 20 bytes (16-byte header plus a 4-byte certificate). -/
def vdata20 : UEFIVariableData := ⟨"db", 20, List.replicate 20 0⟩

/-- Variable data of 24 bytes (16-byte header plus an 8-byte certificate). -/
def vdata24 : UEFIVariableData := ⟨"db", 24, List.replicate 24 0⟩

/-- Rotation-path oracle with no anchor certificate in the live db. -/
def envC2N : SBEnv :=
  { parseUEFIVariableData := fun _ => .ok vdata20
  , parseUEFIVariableAuthority := fun _ => .ok [certRotated]
  , encode := fun w => .ok w.variableData
  , readEFIVariable := fun _ => .error "unused"
  , getArchEFIFiles := .ok "bootEFI"
  , peEnv := peEnvOkFor certStub
  , getCertificatesFromVar := fun _ => .ok [certForeign] }

/-- Rotation-path oracle whose replacement certificate length mismatches. -/
def envC2M : SBEnv :=
  { parseUEFIVariableData := fun _ => .ok vdata24
  , parseUEFIVariableAuthority := fun _ => .ok [certRotated]
  , encode := fun w => .ok w.variableData
  , readEFIVariable := fun _ => .error "unused"
  , getArchEFIFiles := .ok "bootEFI"
  , peEnv := peEnvOkFor certStub
  , getCertificatesFromVar := fun _ => .ok [certStub] }

/-- Rotation-path oracle on which substitution succeeds. -/
def envC2S : SBEnv :=
  { parseUEFIVariableData := fun _ => .ok vdata20
  , parseUEFIVariableAuthority := fun _ => .ok [certRotated]
  , encode := fun w => .ok w.variableData
  , readEFIVariable := fun _ => .error "unused"
  , getArchEFIFiles := .ok "bootEFI"
  , peEnv := peEnvOkFor certStub
  , getCertificatesFromVar := fun _ => .ok [certStub] }

/-- C2 witness: on concrete rotation-path inputs, the missing-anchor case
fails with the expected-certificate-not-in-db error, a 4-byte replacement
certificate against a 24-byte variable data fails with the size-mismatch
error, and against a 20-byte variable data the substitution succeeds,
preserving the total length and the 16 header bytes. -/
theorem c2_certificate_substitution_witness :
    computeExpectedVariableAuthority envC2N [0] =
      .error (.expectedCertificateNotInDB "O=Incus OS Secure Boot") ∧
    computeExpectedVariableAuthority envC2M [0] =
      .error (.certificateSizeMismatch 20 24) ∧
    (computeExpectedVariableAuthority envC2S [0] =
        .ok (List.replicate 16 0 ++ [1, 2, 3, 4]) ∧
      (vdata20.variableData.take 16 ++ certStub.raw).length
        = vdata20.variableData.length ∧
      (vdata20.variableData.take 16 ++ certStub.raw).take 16
        = vdata20.variableData.take 16) :=
  c2_certificate_substitution
    envC2N envC2M envC2S [0] [0] [0] vdata20 vdata24 vdata20
    certRotated certRotated certRotated certStub certStub certStub
    "bootEFI" "bootEFI" "bootEFI" [certForeign] [certStub] [certStub]
    0 0 (List.replicate 16 0 ++ [1, 2, 3, 4])
    rfl rfl rfl (by decide) (by decide) (by decide) (by decide) rfl (by decide) (by decide)
    rfl rfl rfl (by decide) (by decide) (by decide) (by decide) rfl (by decide) (by decide)
      (by decide)
    rfl rfl rfl (by decide) (by decide) (by decide) (by decide) rfl (by decide) (by decide)
      (by decide) rfl

/-- A boot-stub certificate whose Subject splits into a single token. -/
def certShortSubject : Certificate := ⟨[1, 2, 3, 4], "CN=IncusOS"⟩

/-- Oracle whose boot-stub certificate has a one-token Subject and whose
event-log certificate differs from it (reaching the trust-prefix code). -/
def envC8 : SBEnv :=
  { parseUEFIVariableData := fun _ => .ok vdata20
  , parseUEFIVariableAuthority := fun _ => .ok [certForeign]
  , encode := fun w => .ok w.variableData
  , readEFIVariable := fun _ => .error "unused"
  , getArchEFIFiles := .ok "bootEFI"
  , peEnv := peEnvOkFor certShortSubject
  , getCertificatesFromVar := fun _ => .error "unused" }

/-- C8 counterexample: with a boot-stub certificate whose Subject splits
into fewer than four space-separated tokens, the trust-prefix computation
`strings.Split(subject, " ")[:4]` on the certificate-mismatch path aborts
with a slice-bounds panic instead of returning a value or an error, so the
claimed totality fails. -/
theorem c8_trust_prefix_counterexample :
    computeExpectedVariableAuthority envC8 [0] = .panic "slice bounds out of range" ∧
    (computeExpectedVariableAuthority envC8 [0]).isPanic = true := by
  constructor
  · decide
  · decide

/-- C8 amended: the trust-prefix computation is within bounds and the
certificate-mismatch path returns a value or an error — never aborts —
provided the boot-stub certificate's Subject splits into at least four
space-separated tokens and the parsed variable data is at least 16 bytes
long (so that the header slice taken during substitution is also in
bounds). -/
theorem c8_trust_prefix_total_amended
    (env : SBEnv) (rawBuf : List Nat) (v : UEFIVariableData)
    (c existing : Certificate) (path : String)
    (h1 : env.parseUEFIVariableData rawBuf = .ok v)
    (h2 : env.parseUEFIVariableAuthority v = .ok [c])
    (h3 : env.getArchEFIFiles = .ok path)
    (h4 : extractCertificateFromPE env.peEnv path = .ok existing)
    (h6 : 4 ≤ (goSplitSpace existing.subject).length)
    (h9 : 16 ≤ v.variableData.length) :
    (computeExpectedVariableAuthority env rawBuf).isPanic = false := by
  have h4' : ¬((goSplitSpace existing.subject).length < 4) := by omega
  have h9' : ¬(v.variableData.length < 16) := by omega
  by_cases hc : c.Equal existing
  · simp [computeExpectedVariableAuthority, h1, h2, h3, h4, hc, Outcome.isPanic]
  · by_cases hp : goHasPrefix c.subject (goJoinSpace ((goSplitSpace existing.subject).take 4))
    · cases hdb : env.getCertificatesFromVar "db" with
      | error e =>
        simp [computeExpectedVariableAuthority, h1, h2, h3, h4, hc, h4', hp, hdb,
          Outcome.isPanic]
      | ok dbCerts =>
        rw [authority_rotation_path env rawBuf v c existing path dbCerts
          h1 h2 h3 h4 (Bool.eq_false_iff.mpr hc) h6 hp hdb h9]
        cases hidx : dbCerts.findIdx? (fun d => d.Equal existing) with
        | none => simp [hidx, Outcome.isPanic]
        | some index =>
          simp only [hidx]
          split
          · simp [Outcome.isPanic]
          · split <;> simp [Outcome.isPanic]
    · simp [computeExpectedVariableAuthority, h1, h2, h3, h4, hc, h4', hp, Outcome.isPanic]

/-- C8 amended witness: on a concrete rotation-path input with a four-token
Subject and 20-byte variable data, the operation does not panic. -/
theorem c8_trust_prefix_total_amended_witness :
    (computeExpectedVariableAuthority envC2S [0]).isPanic = false :=
  c8_trust_prefix_total_amended envC2S [0] vdata20 certRotated certStub "bootEFI"
    rfl rfl rfl (by decide) (by decide) (by decide)

/-- A 64-bit PE whose security directory is empty (`Size = 0`). -/
def peEnvEmptySecurity : PEEnv :=
  ⟨.ok ⟨.oh64 ⟨1, 0⟩⟩, .ok [], fun _ => .ok []⟩

/-- A 64-bit PE with `Size = 1` and `VirtualAddress = 1`: `certSize = -7`
slips past the `certSize <= -8` guard. -/
def peEnvTinySecurity : PEEnv :=
  ⟨.ok ⟨.oh64 ⟨1, 1⟩⟩, .ok [], fun _ => .ok []⟩

/-- C6: with `DataDirectory[SECURITY].Size == 0` the extractor fails with
the not-a-signed-PE refusal, as claimed; but the claim that the certificate
buffer allocation size is never negative fails — with `Size = 1` and
`VirtualAddress = 1` the computed `certSize = -7` passes the
`certSize <= -8 || offset <= 8` guard and `make([]byte, certSize)` is
reached with a negative length, a runtime panic rather than a returned
error. -/
theorem c6_pe_bounds_negative_allocation :
    extractCertificateFromPE peEnvEmptySecurity "f.efi" =
      .error (.notAValidSignedPE "f.efi") ∧
    Err.isNotASignedPEBinary (.notAValidSignedPE "f.efi") = true ∧
    extractCertificateFromPE peEnvTinySecurity "f.efi" =
      .panic "makeslice: len out of range" := by
  refine ⟨by decide, by decide, by decide⟩

/-- The predictor loop equals the spec-side fold over the PCR-7 events:
events for other PCR indices are skipped entirely, and the PCR-7 events are
processed in log order. -/
theorem pcr7Loop_eq_specFold (env : SBEnv) (log : List Event) :
    ∀ acc, pcr7Loop env acc log = pcr7SpecFold env acc (log.filter fun e => e.index = 7) := by
  induction log with
  | nil => intro acc; rfl
  | cons e rest ih =>
    intro acc
    by_cases he : e.index = 7
    · rw [List.filter_cons_of_pos (by simpa using he)]
      cases htype : e.type with
      | EFIVariableDriverConfig =>
        simp only [pcr7Loop, pcr7SpecFold, pcr7SpecStep, he, if_true, htype]
        cases computeExpectedVariableDriverConfig env e.data <;> simp [ih]
      | EFIVariableAuthority =>
        simp only [pcr7Loop, pcr7SpecFold, pcr7SpecStep, he, if_true, htype]
        cases computeExpectedVariableAuthority env e.data <;> simp [ih]
      | other code =>
        simp only [pcr7Loop, pcr7SpecFold, pcr7SpecStep, he, if_true, htype]
        exact ih _
    · rw [List.filter_cons_of_neg (by simpa using he)]
      simp only [pcr7Loop, he, if_false]
      exact ih acc

/-- C1: the PCR7 prediction starts from the 32-byte zero accumulator,
processes exactly the PCR-7 events in log order (skipping all other
indices), extending with the hashed re-encoded live-variable buffer for
driver-config events, the hashed (possibly substituted) re-encoded buffer
for variable-authority events, and the replayed digest unhashed otherwise
— stated as equality with the spec-side filtered fold — and on the 3-entry
scenario log (a driver-config event for `db` whose re-encoded live-value
buffer is `X`, an authority event whose certificate equals the boot-stub
certificate so its buffer `rawAuth = encode(C1)` is unchanged, and an
unrelated event with replayed digest `D`) it returns
`SHA256(SHA256(SHA256(zero32 || SHA256(X)) || SHA256(encode(C1))) || D)`. -/
theorem c1_pcr7_predictor
    (env : SBEnv) (log : List Event)
    (X D rawDC rawAuth oData dDC dA : List Nat) (vDC vA : UEFIVariableData)
    (c1cert existing : Certificate) (path : String) (tcode : Nat)
    (h0 : vDC.varName = "db")
    (h1 : env.parseUEFIVariableData rawDC = .ok vDC)
    (h2 : env.readEFIVariable "db" = .ok X)
    (h3 : env.encode { vDC with variableDataLength := X.length, variableData := X } = .ok X)
    (h4 : env.parseUEFIVariableData rawAuth = .ok vA)
    (h5 : env.parseUEFIVariableAuthority vA = .ok [c1cert])
    (h6 : env.getArchEFIFiles = .ok path)
    (h7 : extractCertificateFromPE env.peEnv path = .ok existing)
    (h8 : c1cert.Equal existing = true) :
    computeNewPCR7Value env log = predictPCR7Spec env log ∧
    computeNewPCR7Value env
        [⟨7, .EFIVariableDriverConfig, rawDC, dDC⟩,
         ⟨7, .EFIVariableAuthority, rawAuth, dA⟩,
         ⟨7, .other tcode, oData, D⟩] =
      .ok (SHA256 (SHA256 (SHA256 (zero32 ++ SHA256 X) ++ SHA256 rawAuth) ++ D)) := by
  constructor
  · unfold computeNewPCR7Value predictPCR7Spec
    exact pcr7Loop_eq_specFold env log zero32
  · have e1 : computeExpectedVariableDriverConfig env rawDC = .ok X := by
      have h3' := h3
      rw [h0] at h3'
      simp only [computeExpectedVariableDriverConfig, h1, h0, h2, h3']
    have e2 : computeExpectedVariableAuthority env rawAuth = .ok rawAuth := by
      simp only [computeExpectedVariableAuthority, h4, h5, h6, h7]
      simp [h8]
    simp only [computeNewPCR7Value, pcr7Loop, e1, e2]
    simp [extendPCRValue_true, extendPCRValue_false]

/-- Event data of the scenario's driver-config event. -/
def rawDCw : List Nat := [1]

/-- Event data of the scenario's variable-authority event (the encoded
record carrying certificate C1). -/
def rawAuthw : List Nat := [2]

/-- Parsed form of the scenario's driver-config event data. -/
def vDCw : UEFIVariableData := ⟨"db", 4, [7, 7, 7, 7]⟩

/-- Parsed form of the scenario's variable-authority event data. -/
def vAw : UEFIVariableData := ⟨"db", 20, List.replicate 20 0⟩

/-- The scenario's live `db` value, also the re-encoded buffer. -/
def Xw : List Nat := [10, 11, 12]

/-- Oracle for the C1 scenario: the live `db` read yields `Xw`, re-encoding
returns the substituted payload itself, and the event-log certificate
equals the boot-stub certificate. -/
def envC1 : SBEnv :=
  { parseUEFIVariableData := fun b =>
      if b == rawDCw then .ok vDCw else if b == rawAuthw then .ok vAw else .error "parse"
  , parseUEFIVariableAuthority := fun w => if w == vAw then .ok [certStub] else .error "auth"
  , encode := fun w => .ok w.variableData
  , readEFIVariable := fun n => if n == "db" then .ok Xw else .error "read"
  , getArchEFIFiles := .ok "bootEFI"
  , peEnv := peEnvOkFor certStub
  , getCertificatesFromVar := fun _ => .error "unused" }

/-- C1 witness: the refinement equation at a log with a non-PCR-7 event,
and the 3-entry scenario evaluation, on the concrete scenario oracle. -/
theorem c1_pcr7_predictor_witness :
    computeNewPCR7Value envC1 [⟨3, .other 0, [], [5]⟩] =
      predictPCR7Spec envC1 [⟨3, .other 0, [], [5]⟩] ∧
    computeNewPCR7Value envC1
        [⟨7, .EFIVariableDriverConfig, rawDCw, []⟩,
         ⟨7, .EFIVariableAuthority, rawAuthw, []⟩,
         ⟨7, .other 0, [], [13]⟩] =
      .ok (SHA256 (SHA256 (SHA256 (zero32 ++ SHA256 Xw) ++ SHA256 rawAuthw) ++ [13])) :=
  c1_pcr7_predictor envC1 [⟨3, .other 0, [], [5]⟩]
    Xw [13] rawDCw rawAuthw [] [] [] vDCw vAw certStub certStub "bootEFI" 0
    rfl rfl rfl rfl rfl rfl rfl (by decide) (by decide)

/-! ## Recovery-operation lemmas -/

theorem testVolumesLoop_all_pass (env : RecoveryEnv) (vols : List (String × String))
    (h : ∀ nd ∈ vols, env.testPassphrase nd.1 nd.2 = true) :
    testVolumesLoop env vols = (false, vols.map fun nd => .testPassphrase nd.1 nd.2) := by
  induction vols with
  | nil => rfl
  | cons nd rest ih =>
    simp only [testVolumesLoop, h nd (List.mem_cons_self nd rest), if_true]
    simp [ih fun x hx => h x (List.mem_cons_of_mem nd hx)]

theorem testVolumesLoop_flag (env : RecoveryEnv) (vols : List (String × String)) :
    (testVolumesLoop env vols).1 = vols.any fun nd => !(env.testPassphrase nd.1 nd.2) := by
  induction vols with
  | nil => rfl
  | cons nd rest ih =>
    by_cases h : env.testPassphrase nd.1 nd.2 = true <;>
      simp [testVolumesLoop, h, ih]

theorem testVolumesLoop_trace_actions (env : RecoveryEnv) (vols : List (String × String)) :
    ∀ a ∈ (testVolumesLoop env vols).2, ∃ n d, a = Action.testPassphrase n d := by
  induction vols with
  | nil => intro a ha; simp [testVolumesLoop] at ha
  | cons nd rest ih =>
    intro a ha
    by_cases h : env.testPassphrase nd.1 nd.2 = true
    · simp only [testVolumesLoop, h, if_true] at ha
      rcases List.mem_cons.mp ha with rfl | hmem
      · exact ⟨nd.1, nd.2, rfl⟩
      · exact ih a hmem
    · simp only [testVolumesLoop, h, if_false] at ha
      rcases List.mem_cons.mp ha with rfl | hmem
      · exact ⟨nd.1, nd.2, rfl⟩
      · simp at hmem

theorem reenroll_notin_testTrace (env : RecoveryEnv) (vols : List (String × String))
    (d : String) (h : Action.reenroll d ∈ (testVolumesLoop env vols).2) : False := by
  obtain ⟨n, dd, he⟩ := testVolumesLoop_trace_actions env vols _ h
  simp at he

theorem reboot_notin_testTrace (env : RecoveryEnv) (vols : List (String × String))
    (h : Action.reboot ∈ (testVolumesLoop env vols).2) : False := by
  obtain ⟨n, dd, he⟩ := testVolumesLoop_trace_actions env vols _ h
  simp at he

theorem reenrolledDevs_testTrace (env : RecoveryEnv) (vols : List (String × String)) :
    reenrolledDevs (testVolumesLoop env vols).2 = [] := by
  rw [reenrolledDevs, List.filterMap_eq_nil_iff]
  intro a ha
  obtain ⟨n, d, rfl⟩ := testVolumesLoop_trace_actions env vols a ha
  rfl

theorem reenrollLoop_all_ok (env : RecoveryEnv) (vols : List (String × String))
    (h : ∀ nd ∈ vols, env.reenroll nd.2 = true) :
    reenrollLoop env vols = (.ok (), vols.map fun nd => .reenroll nd.2) := by
  induction vols with
  | nil => rfl
  | cons nd rest ih =>
    simp only [reenrollLoop, h nd (List.mem_cons_self nd rest), if_true]
    simp [ih fun x hx => h x (List.mem_cons_of_mem nd hx)]

theorem reenrollLoop_ok_inv (env : RecoveryEnv) (vols : List (String × String))
    (h : (reenrollLoop env vols).1 = .ok ()) :
    ∀ nd ∈ vols, env.reenroll nd.2 = true := by
  induction vols with
  | nil => simp
  | cons nd rest ih =>
    by_cases hr : env.reenroll nd.2 = true
    · intro x hx
      rcases List.mem_cons.mp hx with rfl | hm
      · exact hr
      · exact ih (by simpa [reenrollLoop, hr] using h) x hm
    · exfalso
      simp [reenrollLoop, hr] at h

theorem reenrollLoop_trace_actions (env : RecoveryEnv) (vols : List (String × String)) :
    ∀ a ∈ (reenrollLoop env vols).2, ∃ d, a = Action.reenroll d := by
  induction vols with
  | nil => intro a ha; simp [reenrollLoop] at ha
  | cons nd rest ih =>
    intro a ha
    by_cases hr : env.reenroll nd.2 = true
    · simp only [reenrollLoop, hr, if_true] at ha
      rcases List.mem_cons.mp ha with rfl | hmem
      · exact ⟨nd.2, rfl⟩
      · exact ih a hmem
    · simp only [reenrollLoop, hr, if_false] at ha
      rcases List.mem_cons.mp ha with rfl | hmem
      · exact ⟨nd.2, rfl⟩
      · simp at hmem

theorem reboot_notin_reenrollTrace (env : RecoveryEnv) (vols : List (String × String))
    (h : Action.reboot ∈ (reenrollLoop env vols).2) : False := by
  obtain ⟨d, he⟩ := reenrollLoop_trace_actions env vols _ h
  simp at he

theorem reenrollLoop_first_fail (env : RecoveryEnv) (vols : List (String × String)) :
    ∀ i, i < vols.length →
      env.reenroll (vols.getD i ("", "")).2 = false →
      (∀ j, j < i → env.reenroll (vols.getD j ("", "")).2 = true) →
      reenrollLoop env vols = (.error (.reenrollFailed (vols.getD i ("", "")).2),
        (vols.take (i + 1)).map fun nd => Action.reenroll nd.2) := by
  induction vols with
  | nil => intro i hi; exact absurd hi (by simp)
  | cons nd rest ih =>
    intro i hi hfail hok
    cases i with
    | zero =>
      simp only [List.getD_cons_zero] at hfail ⊢
      simp [reenrollLoop, hfail]
    | succ n =>
      have h0 : env.reenroll nd.2 = true := by
        have := hok 0 (Nat.succ_pos n)
        simpa using this
      simp only [List.getD_cons_succ] at hfail ⊢
      have hrec := ih n (by simpa using hi) hfail fun j hj => by
        have := hok (j + 1) (by omega)
        simpa using this
      simp [reenrollLoop, h0, hrec]

theorem reenrolledDevs_map_reenroll (l : List (String × String)) :
    reenrolledDevs (l.map fun nd => Action.reenroll nd.2) = l.map Prod.snd := by
  induction l with
  | nil => rfl
  | cons nd rest ih =>
    simp only [reenrolledDevs, List.filterMap] at ih ⊢
    simp only [List.map_cons, List.filterMap_cons]
    simp [ih]

theorem reenrolledDevs_map_test (l : List (String × String)) :
    reenrolledDevs (l.map fun nd => Action.testPassphrase nd.1 nd.2) = [] := by
  rw [reenrolledDevs, List.filterMap_eq_nil_iff]
  intro a ha
  obtain ⟨nd, _, rfl⟩ := List.mem_map.mp ha
  rfl

theorem reenrolledDevs_append (a b : List Action) :
    reenrolledDevs (a ++ b) = reenrolledDevs a ++ reenrolledDevs b := by
  simp [reenrolledDevs, List.filterMap_append]

theorem reenrolledDevs_cons_other (a : Action) (tr : List Action)
    (h : ∀ d, a ≠ Action.reenroll d) :
    reenrolledDevs (a :: tr) = reenrolledDevs tr := by
  cases a
  case reenroll d => exact absurd rfl (h d)
  all_goals simp [reenrolledDevs, List.filterMap_cons]

/-- C4: the recovery operation fails with the Secure-Boot-disabled refusal
whenever the Secure Boot query reports disabled, and fails with the
no-recovery-needed refusal whenever every enumerated LUKS volume (any
volume set, the empty one included) passes the passphrase unlock test; in
both cases no volume is re-enrolled and no reboot is requested. -/
theorem c4_recovery_refusals
    (envA envB : RecoveryEnv) (vols : List (String × String))
    (hA : envA.sbEnabled = .ok false)
    (hB1 : envB.sbEnabled = .ok true)
    (hB2 : envB.luksVolumes = .ok vols)
    (hB3 : ∀ nd ∈ vols, envB.testPassphrase nd.1 nd.2 = true) :
    ((ForceUpdatePCRBindings envA).1 = .error .secureBootDisabled ∧
      reenrolledDevs (ForceUpdatePCRBindings envA).2 = [] ∧
      Action.reboot ∉ (ForceUpdatePCRBindings envA).2) ∧
    ((ForceUpdatePCRBindings envB).1 = .error .noRecoveryNeeded ∧
      reenrolledDevs (ForceUpdatePCRBindings envB).2 = [] ∧
      Action.reboot ∉ (ForceUpdatePCRBindings envB).2) := by
  constructor
  · refine ⟨?_, ?_, ?_⟩ <;> simp [ForceUpdatePCRBindings, hA, reenrolledDevs]
  · have ht := testVolumesLoop_all_pass envB vols hB3
    refine ⟨?_, ?_, ?_⟩
    · simp [ForceUpdatePCRBindings, hB1, hB2, ht]
    · simp only [ForceUpdatePCRBindings, hB1, hB2, ht]
      simp [reenrolledDevs, List.filterMap_cons,
        show reenrolledDevs (vols.map fun nd => Action.testPassphrase nd.1 nd.2) = []
          from reenrolledDevs_map_test vols]
    · simp only [ForceUpdatePCRBindings, hB1, hB2, ht]
      simp [List.mem_map]

/-- C4 witness: a disabled-Secure-Boot oracle and an all-volumes-unlockable
oracle are both refused with no re-enrollment and no reboot. -/
theorem c4_recovery_refusals_witness :
    ((ForceUpdatePCRBindings
        { sbEnabled := .ok false, luksVolumes := .ok []
        , testPassphrase := fun _ _ => true, readPCR7 := .error "unused"
        , getPublicKeyFromUKI := .error "unused", writeKeyFile := fun _ => .ok ()
        , reenroll := fun _ => true, rebootCmd := .ok () }).1
        = .error .secureBootDisabled ∧
      reenrolledDevs (ForceUpdatePCRBindings
        { sbEnabled := .ok false, luksVolumes := .ok []
        , testPassphrase := fun _ _ => true, readPCR7 := .error "unused"
        , getPublicKeyFromUKI := .error "unused", writeKeyFile := fun _ => .ok ()
        , reenroll := fun _ => true, rebootCmd := .ok () }).2 = [] ∧
      Action.reboot ∉ (ForceUpdatePCRBindings
        { sbEnabled := .ok false, luksVolumes := .ok []
        , testPassphrase := fun _ _ => true, readPCR7 := .error "unused"
        , getPublicKeyFromUKI := .error "unused", writeKeyFile := fun _ => .ok ()
        , reenroll := fun _ => true, rebootCmd := .ok () }).2) ∧
    ((ForceUpdatePCRBindings
        { sbEnabled := .ok true, luksVolumes := .ok [("a", "/dev/a"), ("b", "/dev/b")]
        , testPassphrase := fun _ _ => true, readPCR7 := .error "unused"
        , getPublicKeyFromUKI := .error "unused", writeKeyFile := fun _ => .ok ()
        , reenroll := fun _ => true, rebootCmd := .ok () }).1
        = .error .noRecoveryNeeded ∧
      reenrolledDevs (ForceUpdatePCRBindings
        { sbEnabled := .ok true, luksVolumes := .ok [("a", "/dev/a"), ("b", "/dev/b")]
        , testPassphrase := fun _ _ => true, readPCR7 := .error "unused"
        , getPublicKeyFromUKI := .error "unused", writeKeyFile := fun _ => .ok ()
        , reenroll := fun _ => true, rebootCmd := .ok () }).2 = [] ∧
      Action.reboot ∉ (ForceUpdatePCRBindings
        { sbEnabled := .ok true, luksVolumes := .ok [("a", "/dev/a"), ("b", "/dev/b")]
        , testPassphrase := fun _ _ => true, readPCR7 := .error "unused"
        , getPublicKeyFromUKI := .error "unused", writeKeyFile := fun _ => .ok ()
        , reenroll := fun _ => true, rebootCmd := .ok () }).2) :=
  c4_recovery_refusals _ _ [("a", "/dev/a"), ("b", "/dev/b")] rfl rfl rfl
    (by intro nd h; rfl)

/-- Gating: a re-enrollment appears in the trace only if the Secure Boot
check, the volume enumeration, the per-volume unlock test (with at least
one failing volume), the live PCR7 read, the UKI certificate extraction and
the runtime key-file write all succeeded. -/
theorem reenroll_gating (env : RecoveryEnv) (d : String)
    (h : Action.reenroll d ∈ (ForceUpdatePCRBindings env).2) :
    env.sbEnabled = .ok true ∧
    (∃ vols, env.luksVolumes = .ok vols ∧
      ∃ nd ∈ vols, env.testPassphrase nd.1 nd.2 = false) ∧
    (∃ p, env.readPCR7 = .ok p) ∧
    (∃ k, env.getPublicKeyFromUKI = .ok k ∧ env.writeKeyFile k = .ok ()) := by
  unfold ForceUpdatePCRBindings at h
  cases hsb : env.sbEnabled with
  | error e => simp only [hsb] at h; simp at h
  | ok b =>
    simp only [hsb] at h
    cases b with
    | false => simp at h
    | true =>
      cases hv : env.luksVolumes with
      | error e => simp only [hv] at h; simp at h
      | ok vols =>
        simp only [hv] at h
        by_cases hflag : (testVolumesLoop env vols).1 = true
        · simp only [hflag, Bool.not_true, Bool.false_eq_true, if_false] at h
          cases hp : env.readPCR7 with
          | error e =>
            simp only [hp] at h
            rcases List.mem_append.mp h with hm | hm
            · rcases List.mem_cons.mp hm with he | hm
              · simp at he
              · rcases List.mem_cons.mp hm with he | hm
                · simp at he
                · exact absurd hm (fun hm => reenroll_notin_testTrace env vols d hm)
            · simp at hm
          | ok p =>
            simp only [hp] at h
            cases hu : env.getPublicKeyFromUKI with
            | error e =>
              simp only [hu] at h
              rcases List.mem_append.mp h with hm | hm
              · rcases List.mem_cons.mp hm with he | hm
                · simp at he
                · rcases List.mem_cons.mp hm with he | hm
                  · simp at he
                  · exact absurd hm (fun hm => reenroll_notin_testTrace env vols d hm)
              · simp at hm
            | ok k =>
              simp only [hu] at h
              cases hw : env.writeKeyFile k with
              | error e =>
                simp only [hw] at h
                rcases List.mem_append.mp h with hm | hm
                · rcases List.mem_cons.mp hm with he | hm
                  · simp at he
                  · rcases List.mem_cons.mp hm with he | hm
                    · simp at he
                    · exact absurd hm (fun hm => reenroll_notin_testTrace env vols d hm)
                · simp at hm
              | ok u =>
                refine ⟨rfl, ⟨vols, rfl, ?_⟩, ⟨p, rfl⟩, ⟨k, rfl, hw⟩⟩
                rw [testVolumesLoop_flag] at hflag
                obtain ⟨nd, hmem, hf⟩ := List.any_eq_true.mp hflag
                exact ⟨nd, hmem, by simpa using hf⟩
        · simp only [Bool.not_eq_true] at hflag
          simp only [hflag, Bool.not_false, if_true] at h
          rcases List.mem_cons.mp h with he | hm
          · simp at he
          · rcases List.mem_cons.mp hm with he | hm
            · simp at he
            · exact absurd hm (fun hm => reenroll_notin_testTrace env vols d hm)

/-- A reboot appears in the trace only if every enumerated volume was
successfully re-enrolled, and then the re-enrolled devices are exactly the
enumerated volume devices in order. -/
theorem reboot_implies_all_reenrolled (env : RecoveryEnv)
    (h : Action.reboot ∈ (ForceUpdatePCRBindings env).2) :
    ∃ vols, env.luksVolumes = .ok vols ∧
      (∀ nd ∈ vols, env.reenroll nd.2 = true) ∧
      reenrolledDevs (ForceUpdatePCRBindings env).2 = vols.map Prod.snd := by
  unfold ForceUpdatePCRBindings at h ⊢
  cases hsb : env.sbEnabled with
  | error e => simp only [hsb] at h; simp at h
  | ok b =>
    simp only [hsb] at h ⊢
    cases b with
    | false => simp at h
    | true =>
      cases hv : env.luksVolumes with
      | error e => simp only [hv] at h; simp at h
      | ok vols =>
        simp only [hv] at h ⊢
        by_cases hflag : (testVolumesLoop env vols).1 = true
        · simp only [hflag, Bool.not_true, Bool.false_eq_true, if_false] at h ⊢
          cases hp : env.readPCR7 with
          | error e =>
            simp only [hp] at h
            rcases List.mem_append.mp h with hm | hm
            · rcases List.mem_cons.mp hm with he | hm
              · simp at he
              · rcases List.mem_cons.mp hm with he | hm
                · simp at he
                · exact absurd hm (fun hm => reboot_notin_testTrace env vols hm)
            · simp at hm
          | ok p =>
            simp only [hp] at h ⊢
            cases hu : env.getPublicKeyFromUKI with
            | error e =>
              simp only [hu] at h
              rcases List.mem_append.mp h with hm | hm
              · rcases List.mem_cons.mp hm with he | hm
                · simp at he
                · rcases List.mem_cons.mp hm with he | hm
                  · simp at he
                  · exact absurd hm (fun hm => reboot_notin_testTrace env vols hm)
              · simp at hm
            | ok k =>
              simp only [hu] at h ⊢
              cases hw : env.writeKeyFile k with
              | error e =>
                simp only [hw] at h
                rcases List.mem_append.mp h with hm | hm
                · rcases List.mem_cons.mp hm with he | hm
                  · simp at he
                  · rcases List.mem_cons.mp hm with he | hm
                    · simp at he
                    · exact absurd hm (fun hm => reboot_notin_testTrace env vols hm)
                · simp at hm
              | ok u =>
                simp only [hw] at h ⊢
                cases hr : (reenrollLoop env vols).1 with
                | error e =>
                  simp only [hr] at h
                  rcases List.mem_append.mp h with hm | hm
                  · rcases List.mem_append.mp hm with hm2 | hm2
                    · rcases List.mem_cons.mp hm2 with he | hm3
                      · simp at he
                      · rcases List.mem_cons.mp hm3 with he | hm3
                        · simp at he
                        · exact absurd hm3 (fun hm3 => reboot_notin_testTrace env vols hm3)
                    · simp at hm2
                  · exact absurd hm (fun hm => reboot_notin_reenrollTrace env vols hm)
                | ok u2 =>
                  have hall : ∀ nd ∈ vols, env.reenroll nd.2 = true :=
                    reenrollLoop_ok_inv env vols (by rw [hr])
                  have hloop := reenrollLoop_all_ok env vols hall
                  have hsnd : (reenrollLoop env vols).2
                      = vols.map fun nd => Action.reenroll nd.2 := by rw [hloop]
                  have h1 := reenrolledDevs_testTrace env vols
                  have h2 := reenrolledDevs_map_reenroll vols
                  refine ⟨vols, rfl, hall, ?_⟩
                  simp only [hr]
                  cases hrb : env.rebootCmd with
                  | error e =>
                    simp only [reenrolledDevs] at h1 h2 ⊢
                    simp [List.cons_append, List.append_assoc, List.filterMap_append,
                      List.filterMap_cons, hsnd, h1, h2]
                  | ok u3 =>
                    simp only [reenrolledDevs] at h1 h2 ⊢
                    simp [List.cons_append, List.append_assoc, List.filterMap_append,
                      List.filterMap_cons, hsnd, h1, h2]
        · simp only [Bool.not_eq_true] at hflag
          simp only [hflag, Bool.not_false, if_true] at h
          rcases List.mem_cons.mp h with he | hm
          · simp at he
          · rcases List.mem_cons.mp hm with he | hm
            · simp at he
            · exact absurd hm (fun hm => reboot_notin_testTrace env vols hm)

/-- C3: no destructive step runs unless every preceding step succeeded —
(a) a re-enrollment appears in the trace only if the Secure Boot check, the
volume enumeration with a failing unlock test, the live PCR7 read, the UKI
certificate extraction and the runtime key-file write all succeeded;
(b) when the first re-enrollment failure is at volume `iB`, the operation
aborts with that volume's error, exactly the volumes up to and including
`iB` were touched, and no reboot is requested; (c) a reboot appears in the
trace only if every enumerated volume was re-enrolled.  The three parts are
instantiated on three independent oracle environments. -/
theorem c3_recovery_gating
    (envA : RecoveryEnv) (d : String)
    (hA : Action.reenroll d ∈ (ForceUpdatePCRBindings envA).2)
    (envB : RecoveryEnv) (volsB : List (String × String)) (pB kB : List Nat) (iB : Nat)
    (hB1 : envB.sbEnabled = .ok true)
    (hB2 : envB.luksVolumes = .ok volsB)
    (hB3 : ∃ nd ∈ volsB, envB.testPassphrase nd.1 nd.2 = false)
    (hB4 : envB.readPCR7 = .ok pB)
    (hB5 : envB.getPublicKeyFromUKI = .ok kB)
    (hB6 : envB.writeKeyFile kB = .ok ())
    (hB7 : iB < volsB.length)
    (hB8 : envB.reenroll (volsB.getD iB ("", "")).2 = false)
    (hB9 : ∀ j, j < iB → envB.reenroll (volsB.getD j ("", "")).2 = true)
    (envC : RecoveryEnv)
    (hC : Action.reboot ∈ (ForceUpdatePCRBindings envC).2) :
    (envA.sbEnabled = .ok true ∧
      (∃ vols, envA.luksVolumes = .ok vols ∧
        ∃ nd ∈ vols, envA.testPassphrase nd.1 nd.2 = false) ∧
      (∃ p, envA.readPCR7 = .ok p) ∧
      (∃ k, envA.getPublicKeyFromUKI = .ok k ∧ envA.writeKeyFile k = .ok ())) ∧
    ((ForceUpdatePCRBindings envB).1
        = .error (.reenrollFailed (volsB.getD iB ("", "")).2) ∧
      reenrolledDevs (ForceUpdatePCRBindings envB).2
        = (volsB.take (iB + 1)).map Prod.snd ∧
      Action.reboot ∉ (ForceUpdatePCRBindings envB).2) ∧
    (∃ vols, envC.luksVolumes = .ok vols ∧
      (∀ nd ∈ vols, envC.reenroll nd.2 = true) ∧
      reenrolledDevs (ForceUpdatePCRBindings envC).2 = vols.map Prod.snd) := by
  refine ⟨reenroll_gating envA d hA, ?_, reboot_implies_all_reenrolled envC hC⟩
  have hflag : (testVolumesLoop envB volsB).1 = true := by
    rw [testVolumesLoop_flag]
    obtain ⟨nd, hmem, hf⟩ := hB3
    exact List.any_eq_true.mpr ⟨nd, hmem, by simp [hf]⟩
  have hloop := reenrollLoop_first_fail envB volsB iB hB7 hB8 hB9
  have hfst : (reenrollLoop envB volsB).1
      = .error (.reenrollFailed (volsB.getD iB ("", "")).2) := by rw [hloop]
  have hsnd : (reenrollLoop envB volsB).2
      = (volsB.take (iB + 1)).map fun nd => Action.reenroll nd.2 := by rw [hloop]
  refine ⟨?_, ?_, ?_⟩
  · simp [ForceUpdatePCRBindings, hB1, hB2, hflag, hB4, hB5, hB6, hfst]
  · simp only [ForceUpdatePCRBindings, hB1, hB2, hflag, Bool.not_true, Bool.false_eq_true,
      if_false, hB4, hB5, hB6, hfst, hsnd]
    rw [reenrolledDevs_append, reenrolledDevs_append]
    rw [reenrolledDevs_cons_other _ _ (by simp), reenrolledDevs_cons_other _ _ (by simp)]
    rw [reenrolledDevs_testTrace]
    rw [show reenrolledDevs [Action.readPCR7, Action.extractUKICert, Action.writeRuntimeKey]
      = [] from rfl]
    rw [reenrolledDevs_map_reenroll]
    simp
  · intro hmem
    obtain ⟨vols', hv', hall', _⟩ := reboot_implies_all_reenrolled envB hmem
    rw [hB2] at hv'
    injection hv' with hv''
    subst hv''
    have hmemi : volsB.getD iB ("", "") ∈ volsB := by
      rw [List.getD_eq_getElem _ _ hB7]
      exact List.getElem_mem hB7
    have htrue := hall' _ hmemi
    rw [htrue] at hB8
    exact absurd hB8 (by decide)

/-- Recovery oracle on which every step succeeds (one volume needing
recovery), so the trace reaches re-enrollment and the reboot. -/
def envC3A : RecoveryEnv :=
  { sbEnabled := .ok true
  , luksVolumes := .ok [("a", "/dev/a")]
  , testPassphrase := fun _ _ => false
  , readPCR7 := .ok [0]
  , getPublicKeyFromUKI := .ok [1]
  , writeKeyFile := fun _ => .ok ()
  , reenroll := fun _ => true
  , rebootCmd := .ok () }

/-- Recovery oracle whose second volume's re-enrollment fails. -/
def envC3B : RecoveryEnv :=
  { sbEnabled := .ok true
  , luksVolumes := .ok [("a", "/dev/a"), ("b", "/dev/b")]
  , testPassphrase := fun _ _ => false
  , readPCR7 := .ok [0]
  , getPublicKeyFromUKI := .ok [1]
  , writeKeyFile := fun _ => .ok ()
  , reenroll := fun dv => dv == "/dev/a"
  , rebootCmd := .ok () }

/-- C3 witness: a concrete successful run re-enrolls after all gates pass;
a run whose second volume fails to re-enroll aborts with that volume's
error, touches exactly the first two volumes, and never reboots; and the
successful run's reboot implies every volume was re-enrolled. -/
theorem c3_recovery_gating_witness :
    (envC3A.sbEnabled = .ok true ∧
      (∃ vols, envC3A.luksVolumes = .ok vols ∧
        ∃ nd ∈ vols, envC3A.testPassphrase nd.1 nd.2 = false) ∧
      (∃ p, envC3A.readPCR7 = .ok p) ∧
      (∃ k, envC3A.getPublicKeyFromUKI = .ok k ∧ envC3A.writeKeyFile k = .ok ())) ∧
    ((ForceUpdatePCRBindings envC3B).1
        = .error (.reenrollFailed (([("a", "/dev/a"), ("b", "/dev/b")].getD 1 ("", "")).2)) ∧
      reenrolledDevs (ForceUpdatePCRBindings envC3B).2
        = ([("a", "/dev/a"), ("b", "/dev/b")].take 2).map Prod.snd ∧
      Action.reboot ∉ (ForceUpdatePCRBindings envC3B).2) ∧
    (∃ vols, envC3A.luksVolumes = .ok vols ∧
      (∀ nd ∈ vols, envC3A.reenroll nd.2 = true) ∧
      reenrolledDevs (ForceUpdatePCRBindings envC3A).2 = vols.map Prod.snd) :=
  c3_recovery_gating envC3A "/dev/a" (by decide)
    envC3B [("a", "/dev/a"), ("b", "/dev/b")] [0] [1] 1
    rfl rfl (by decide) rfl rfl rfl (by decide) (by decide)
    (by
      intro j hj
      have hj0 : j = 0 := by omega
      subst hj0
      decide)
    envC3A (by decide)

end SecureBoot
